import Mathlib

/-!
Verification of the overthrower fault-injection allocator shim.

Shallow embedding of `overthrower.cpp` (the instrumented allocator core).
The embedding models the Linux build (symbol interposition, recursive-mutex
registry) for a single thread; the per-thread `State` struct and the
process-wide globals are merged into one record `GState`.

Nondeterministic inputs of one `malloc` call — the backtrace classifier's
verdict, the values drawn from `rand()`, the native allocator's result, and
whether the registry's own backing allocation succeeds — are passed in as an
oracle record `MallocEnv`.  Machine `unsigned int` values are `Nat` with an
explicit `% 2^32` where the program's arithmetic can wrap (the allocation
counter); the configuration values `delay ≤ 1000000` and `duration ≤ 100`
are range-validated at activation, so `delay + duration` never wraps and is
modelled with plain `Nat` addition.

Modelling assumptions, stated once here:
* the native (underlying) allocator follows POSIX: on failure it returns
  NULL having set `errno = ENOMEM`; on success it leaves `errno` alone;
  the native `free` does not modify `errno`;
* a pointer handed out by the native allocator is never equal to a pointer
  that is currently live (theorems that need this take it as a hypothesis);
* the internal allocations performed while `is_tracing` is set (backtrace
  buffers, demangling) are invisible here: in the source they run with
  `paused[depth]` forced to `UINT_MAX`, are neither failed nor tracked,
  and every temporary is freed before the guard is cleared, so their net
  effect on the modelled state is nil.  The classifier's two output flags
  are the oracle fields `white_list` / `ignore_list`.
-/

namespace Overthrower

/-- The modulus `2^32` of C `unsigned int` arithmetic. -/
def U32MOD : Nat := 2 ^ 32

/-- The value `UINT_MAX`. -/
def UINT_MAX : Nat := U32MOD - 1

/-- The `errno` value `ENOMEM` (its value on Linux). -/
def ENOMEM : Nat := 12

/-- The constant `MAX_PAUSE_DEPTH` from the source. -/
def MAX_PAUSE_DEPTH : Nat := 16

/-- The four failure strategies (`STRATEGY_RANDOM` .. `STRATEGY_NONE`). -/
inductive Strategy where
  | random
  | step
  | pulse
  | none
deriving DecidableEq, Repr

/-- Registry value: `struct Info { unsigned int seq_num; size_t size; }`. -/
structure Info where
  seq_num : Nat
  size : Nat
deriving DecidableEq, Repr

/--
Oracle inputs consumed by one interposed allocation call: the stack
classifier's verdict, the `rand()` draws, the native allocator's answer and
whether the registry's `emplace` obtains its backing node.
-/
structure MallocEnv where
  /-- Flag `is_in_white_list` as produced by `searchKnowledgeBase`. -/
  white_list : Bool
  /-- Flag `is_in_ignore_list` as produced by `searchKnowledgeBase`. -/
  ignore_list : Bool
  /-- the `rand()` draw used by `STRATEGY_RANDOM` (`rand() % g_duty_cycle == 0`). -/
  rand_val : Nat
  /-- the `rand()` draw used by the self-overthrow coin (`rand() % 2 == 0`). -/
  so_rand_val : Nat
  /-- result of the underlying native `malloc`: `none` is a genuine OOM. -/
  native_ptr : Option Nat
  /-- fresh content of the block delivered by the native allocator. -/
  fresh_content : Nat
  /-- whether `g_allocated.emplace` obtains its node (otherwise `std::bad_alloc`). -/
  insert_ok : Bool
deriving DecidableEq, Repr

/--
The program state visible to one thread: the process-wide globals of
`overthrower.cpp` (configuration, activation flag, allocation counter,
registry) together with the thread's `State` (tracing guard, pause stack,
depth), the heap contents and `errno`.

`allocated` is the `std::unordered_map<void*, Info>` registry as an
association list keyed by the (abstract, numeric) pointer.  `mem` maps each
currently allocated pointer to an abstract content token; it exists so that
"the old block's contents are untouched" is a statable property.
-/
structure GState where
  activated : Bool
  self_overthrow : Bool
  strategy : Strategy
  duty_cycle : Nat
  delay : Nat
  duration : Nat
  /-- Counter `g_malloc_counter`, kept below `2^32` (incremented mod `2^32`). -/
  malloc_counter : Nat
  allocated : List (Nat × Info)
  mem : List (Nat × Nat)
  is_tracing : Bool
  /-- Array `paused[MAX_PAUSE_DEPTH + 1]`, a list of length 17. -/
  paused : List Nat
  depth : Nat
  errno : Nat
deriving DecidableEq, Repr

/-- A freshly initialized state (globals zeroed as in the source). -/
def initState : GState :=
  { activated := false
    self_overthrow := false
    strategy := Strategy.random
    duty_cycle := 1024
    delay := 0
    duration := 1
    malloc_counter := 0
    allocated := []
    mem := []
    is_tracing := false
    paused := List.replicate (MAX_PAUSE_DEPTH + 1) 0
    depth := 0
    errno := 0 }

/-- Registry lookup (`g_allocated.count` / `g_allocated.at`). -/
def lookupA (l : List (Nat × Info)) (p : Nat) : Option Info :=
  (l.find? (fun e => e.1 = p)).map (fun e => e.2)

/-- Registry `emplace`: inserts only when the key is absent. -/
def emplaceA (l : List (Nat × Info)) (p : Nat) (i : Info) : List (Nat × Info) :=
  if (lookupA l p).isSome then l else (p, i) :: l

/-- Registry `erase`. -/
def eraseA (l : List (Nat × Info)) (p : Nat) : List (Nat × Info) :=
  l.filter (fun e => ¬ e.1 = p)

/-- Heap-content lookup. -/
def lookupM (l : List (Nat × Nat)) (p : Nat) : Option Nat :=
  (l.find? (fun e => e.1 = p)).map (fun e => e.2)

/-- Heap-content removal (the block stops being live). -/
def eraseM (l : List (Nat × Nat)) (p : Nat) : List (Nat × Nat) :=
  l.filter (fun e => ¬ e.1 = p)

/-- Heap-content write: the block `p` becomes live with content `c`. -/
def writeM (l : List (Nat × Nat)) (p : Nat) (c : Nat) : List (Nat × Nat) :=
  (p, c) :: eraseM l p

/-- The strategy decision as a pure function of the configuration scalars. -/
def decideFail (strat : Strategy) (duty delay dur : Nat) (env : MallocEnv) (seq : Nat) : Bool :=
  match strat with
  | Strategy.random => env.rand_val % duty = 0
  | Strategy.step => delay ≤ seq
  | Strategy.pulse => delay < seq && seq ≤ delay + dur
  | Strategy.none => false

/--
Source function `isTimeToFail(malloc_seq_num)`:

    case STRATEGY_RANDOM: return rand() % g_duty_cycle == 0;
    case STRATEGY_STEP:   return malloc_seq_num >= g_delay;
    case STRATEGY_PULSE:  return malloc_seq_num > g_delay
                              && malloc_seq_num <= g_delay + g_duration;
    case STRATEGY_NONE: default: return false;
-/
def isTimeToFail (g : GState) (env : MallocEnv) (malloc_seq_num : Nat) : Bool :=
  decideFail g.strategy g.duty_cycle g.delay g.duration env malloc_seq_num

/--
Source function `nonFailingMalloc(size)`: in self-overthrow mode a coin flip emulates a real
OOM by returning NULL — note that this early return touches neither the
native allocator nor `errno`.  Otherwise the native allocator answers; a
genuine native failure sets `errno = ENOMEM` (POSIX behaviour of the
underlying allocator, see the header comment).
-/
def nonFailingMalloc (g : GState) (env : MallocEnv) (size : Nat) : Option Nat × GState :=
  if g.self_overthrow && env.so_rand_val % 2 = 0 then
    (Option.none, g)
  else
    match env.native_ptr with
    | Option.none => (Option.none, { g with errno := ENOMEM })
    | Option.some p => (Option.some p, { g with mem := writeM g.mem p env.fresh_content })

/-- Source function `nonFailingFree(pointer)`: unconditional native free. -/
def nonFailingFree (g : GState) (p : Nat) : GState :=
  { g with mem := eraseM g.mem p }

/--
Source function `my_malloc(size)` (the Linux `malloc` entry point), translated branch by
branch from the source:

1. if not activated, route to `nonFailingMalloc`;
2. `depth = g_state.depth` (the source asserts `depth <= MAX_PAUSE_DEPTH`);
3. `is_in_white_list = g_state.is_tracing`; when not tracing the classifier
   runs (its verdict is the oracle's `white_list` / `ignore_list`);
4. if `paused[depth] != 0`: decrement it and route to `nonFailingMalloc`
   (no sequence number is consumed, nothing is tracked);
5. fetch `malloc_seq_num = g_malloc_counter++` (post-increment, wraps);
6. if white-listed or `size == 0`, route to `nonFailingMalloc`;
7. if `isTimeToFail`, set `errno = ENOMEM` and return NULL;
8. call `nonFailingMalloc`; NULL (real OOM) is propagated as is;
9. unless ignore-listed, `emplace` into the registry; if the emplace's own
   backing allocation fails, free the fresh block, set `errno = ENOMEM`
   and return NULL.
-/
def my_malloc (g : GState) (env : MallocEnv) (size : Nat) : Option Nat × GState :=
  if ¬ g.activated then
    nonFailingMalloc g env size
  else
    let depth := g.depth
    let is_in_white_list := if g.is_tracing then true else env.white_list
    let is_in_ignore_list := if g.is_tracing then false else env.ignore_list
    if g.paused.getD depth 0 ≠ 0 then
      let g1 := { g with paused := g.paused.set depth (g.paused.getD depth 0 - 1) }
      nonFailingMalloc g1 env size
    else
      let seq := g.malloc_counter
      let g1 := { g with malloc_counter := (g.malloc_counter + 1) % U32MOD }
      if is_in_white_list || size = 0 then
        nonFailingMalloc g1 env size
      else if isTimeToFail g1 env seq then
        (Option.none, { g1 with errno := ENOMEM })
      else
        match nonFailingMalloc g1 env size with
        | (Option.none, g2) => (Option.none, g2)
        | (Option.some p, g2) =>
          if ¬ is_in_ignore_list then
            if env.insert_ok then
              (Option.some p, { g2 with allocated := emplaceA g2.allocated p ⟨seq, size⟩ })
            else
              (Option.none, { (nonFailingFree g2 p) with errno := ENOMEM })
          else
            (Option.some p, g2)

/--
Source function `my_free(pointer)`.  A NULL argument returns immediately (before any call
into the native allocator, whose function pointer may still be unresolved).
When activated, `errno` is saved around the registry erase and restored.
The second component records whether the native `free` was invoked.
-/
def my_free (g : GState) (p : Option Nat) : GState × Bool :=
  match p with
  | Option.none => (g, false)
  | Option.some p =>
    let g1 :=
      if g.activated then
        let old_errno := g.errno
        let g' := { g with allocated := eraseA g.allocated p }
        { g' with errno := old_errno }
      else
        g
    ({ g1 with mem := eraseM g1.mem p }, true)

/--
The native `realloc`, reached by `my_realloc` for pointers that are not in
the registry.  Modelled like the native `malloc`: on failure NULL with
`errno = ENOMEM`, on success the block moves to the returned pointer.
-/
def nativeRealloc (g : GState) (env : MallocEnv) (p : Nat) (size : Nat) : Option Nat × GState :=
  match env.native_ptr with
  | Option.none => (Option.none, { g with errno := ENOMEM })
  | Option.some q =>
    (Option.some q, { g with mem := writeM (eraseM g.mem p) q ((lookupM g.mem p).getD env.fresh_content) })

/--
Source function `my_realloc(pointer, size)`:

    if (!pointer) return my_malloc(size);
    if (!size) { my_free(pointer); return nullptr; }
    if (!g_allocated.count(pointer)) return native_realloc(pointer, size);
    const size_t old_size = g_allocated.at(pointer).size;
    void* new_ptr = my_malloc(size);
    if (!new_ptr) return nullptr;
    memcpy(new_ptr, pointer, std::min(old_size, size));
    my_free(pointer);
    return new_ptr;

The `memcpy` is modelled as the new block taking over the old content token.
-/
def my_realloc (g : GState) (env : MallocEnv) (p : Option Nat) (size : Nat) : Option Nat × GState :=
  match p with
  | Option.none => my_malloc g env size
  | Option.some p =>
    if size = 0 then
      (Option.none, (my_free g (Option.some p)).1)
    else
      match lookupA g.allocated p with
      | Option.none => nativeRealloc g env p size
      | Option.some _ =>
        match my_malloc g env size with
        | (Option.none, g1) => (Option.none, g1)
        | (Option.some new_ptr, g1) =>
          let g2 := { g1 with mem := writeM g1.mem new_ptr ((lookupM g1.mem p).getD 0) }
          (Option.some new_ptr, (my_free g2 (Option.some p)).1)

/-- Configuration delivered by `readValFromEnvVar` at activation time. -/
structure ActivationConfig where
  strategy : Strategy
  duty_cycle : Nat
  delay : Nat
  duration : Nat
  self_overthrow : Bool
deriving DecidableEq, Repr

/--
Source function `activateOverthrower()`: resets the allocation counter, installs the
configuration read from the environment and raises the activation flag.
It does not touch the registry or the per-thread state.
-/
def activateOverthrower (g : GState) (cfg : ActivationConfig) : GState :=
  { g with
    malloc_counter := 0
    strategy := cfg.strategy
    duty_cycle := cfg.duty_cycle
    delay := cfg.delay
    duration := cfg.duration
    self_overthrow := cfg.self_overthrow
    activated := true }

/--
Source function `deactivateOverthrower()`: clears the self-overthrow and activation flags,
resets the calling thread's `State` (`g_state = {}`), returns the number of
still-registered (leaked) blocks and clears the registry.
-/
def deactivateOverthrower (g : GState) : Nat × GState :=
  (g.allocated.length,
   { g with
     self_overthrow := false
     activated := false
     is_tracing := false
     paused := List.replicate (MAX_PAUSE_DEPTH + 1) 0
     depth := 0
     allocated := [] })

/--
Source function `pauseOverthrower(duration)`: 0 is stored as `UINT_MAX`; at
`depth == MAX_PAUSE_DEPTH` the stack saturates by overwriting the top slot,
otherwise a new level is pushed.
-/
def pauseOverthrower (g : GState) (dur : Nat) : GState :=
  let dur := if dur = 0 then UINT_MAX else dur
  if g.depth = MAX_PAUSE_DEPTH then
    { g with paused := g.paused.set MAX_PAUSE_DEPTH dur }
  else
    { g with depth := g.depth + 1, paused := g.paused.set (g.depth + 1) dur }

/-- Source function `resumeOverthrower()`: a no-op at depth 0, otherwise pops one level. -/
def resumeOverthrower (g : GState) : GState :=
  if g.depth = 0 then g else { g with depth := g.depth - 1 }

/-- One host-visible operation on the shim. -/
inductive Op where
  | malloc (env : MallocEnv) (size : Nat)
  | free (p : Option Nat)
  | realloc (env : MallocEnv) (p : Option Nat) (size : Nat)
  | pause (dur : Nat)
  | resume
  | activate (cfg : ActivationConfig)
  | deactivate
deriving DecidableEq, Repr

/-- Effect of one operation on the state (results discarded). -/
def stepOp (g : GState) : Op → GState
  | Op.malloc env size => (my_malloc g env size).2
  | Op.free p => (my_free g p).1
  | Op.realloc env p size => (my_realloc g env p size).2
  | Op.pause dur => pauseOverthrower g dur
  | Op.resume => resumeOverthrower g
  | Op.activate cfg => activateOverthrower g cfg
  | Op.deactivate => (deactivateOverthrower g).2

/-- Run a sequence of operations. -/
def runOps (g : GState) (ops : List Op) : GState :=
  ops.foldl stepOp g

/-- Run a sequence of `malloc` calls, collecting the returned pointers. -/
def runMallocs (g : GState) : List (MallocEnv × Nat) → List (Option Nat) × GState
  | [] => ([], g)
  | c :: rest =>
    let r := my_malloc g c.1 c.2
    let rr := runMallocs r.2 rest
    (r.1 :: rr.1, rr.2)

/--
The per-call part of "reaching the failure-decision point" in the sense of
the claims: not white-listed and of nonzero size; in addition the
non-injected sources of NULL are switched off (native allocator succeeding,
registry backing store available), so that — with self-overthrow disabled,
which is a hypothesis on the state — a NULL return and an injected failure
coincide.
-/
def ReachesCall (c : MallocEnv × Nat) : Prop :=
  c.1.white_list = false ∧ c.2 ≠ 0 ∧ c.1.native_ptr.isSome = true ∧ c.1.insert_ok = true

instance (c : MallocEnv × Nat) : Decidable (ReachesCall c) := by
  unfold ReachesCall
  infer_instance

/-- The pointers currently registered (tracked) in the registry. -/
def regKeys (g : GState) : List Nat :=
  g.allocated.map (fun e => e.1)

/-- Recognizer for the operations C4 quantifies over. -/
def isMallocFreeOp : Op → Bool
  | Op.malloc _ _ => true
  | Op.free _ => true
  | _ => false

/--
The value returned by `my_malloc`, expressed as a function of exactly the
state components the source's control flow reads (activation and tracing
flags, self-overthrow mode, the pause counter of the current level, the
strategy configuration and the allocation counter).  Used to state that the
call's outcome is oblivious to the registry, the heap contents and `errno`.
-/
def mallocFst (activated tracing so : Bool) (pausedv : Nat) (strat : Strategy)
    (duty delay dur seq : Nat) (env : MallocEnv) (size : Nat) : Option Nat :=
  let nfm : Option Nat := if so && env.so_rand_val % 2 = 0 then Option.none else env.native_ptr
  if ¬ activated then nfm
  else if pausedv ≠ 0 then nfm
  else
    let wl := if tracing then true else env.white_list
    let il := if tracing then false else env.ignore_list
    if wl || size = 0 then nfm
    else if decideFail strat duty delay dur env seq then Option.none
    else
      match nfm with
      | Option.none => Option.none
      | Option.some p =>
        if ¬ il then (if env.insert_ok then Option.some p else Option.none)
        else Option.some p

/-- An oracle for a plain, track-eligible, decision-reaching call. -/
def envOK : MallocEnv :=
  { white_list := false
    ignore_list := false
    rand_val := 1
    so_rand_val := 1
    native_ptr := Option.some 1000
    fresh_content := 0
    insert_ok := true }

/-- An oracle whose self-overthrow coin emulates a native OOM. -/
def envSO : MallocEnv :=
  { envOK with so_rand_val := 0 }

/--
Spec-side definition, written from the spec's words rather than the source
(for comparison only): the success/fail pattern the spec ascribes to the
PULSE strategy, the string of `D` successes, then `K` failures, then
`N - D - K` successes, rendered as a list of booleans with `true` standing
for a failed allocation.
-/
def specPulsePattern (D K N : Nat) : List Bool :=
  List.replicate D false ++ List.replicate K true ++ List.replicate (N - D - K) false


/-- A state activated with STEP(delay = 2). -/
def gStep2 : GState := activateOverthrower initState ⟨Strategy.step, 1024, 2, 1, false⟩

/-- A state activated with PULSE(delay = 1, duration = 2). -/
def gPulse11 : GState := activateOverthrower initState ⟨Strategy.pulse, 1024, 1, 2, false⟩

/-- A state activated with PULSE(delay = 0, duration = 1). -/
def gPulse01 : GState := activateOverthrower initState ⟨Strategy.pulse, 1024, 0, 1, false⟩

/-- A state activated with the NONE strategy. -/
def gNone : GState := activateOverthrower initState ⟨Strategy.none, 1024, 0, 1, false⟩

/-- A state activated with the NONE strategy and self-overthrow mode on. -/
def gSO : GState := activateOverthrower initState ⟨Strategy.none, 1024, 0, 1, true⟩

/-- A state activated with STEP(delay = 0): every decision-reaching call fails. -/
def gStep0 : GState := activateOverthrower initState ⟨Strategy.step, 1024, 0, 1, false⟩

/-- A STEP(delay = 0) state in which the pointer 500 is tracked with
sequence number 1 and size 4. -/
def gC6 : GState := { gStep0 with allocated := [(500, ⟨1, 4⟩)], mem := [(500, 7)] }

theorem getD_pos_lt (l : List Nat) (i : Nat) (h : l.getD i 0 ≠ 0) : i < l.length := by
  by_contra hc
  have h2 : l[i]? = Option.none := List.getElem?_eq_none (le_of_not_lt hc)
  simp [List.getD, h2] at h

theorem getD_set_self (l : List Nat) (i : Nat) (a : Nat) (h : i < l.length) :
    (l.set i a).getD i 0 = a := by
  simp [List.getD, List.getElem?_set_self, h]

theorem getD_set_ne (l : List Nat) (i j : Nat) (a : Nat) (h : i ≠ j) :
    (l.set i a).getD j 0 = l.getD j 0 := by
  simp [List.getD, List.getElem?_set_ne h]


theorem lookupM_eraseM_ne (m : List (Nat × Nat)) (q p : Nat) (h : ¬ p = q) :
    lookupM (eraseM m q) p = lookupM m p := by
  induction m with
  | nil => rfl
  | cons a m ih =>
    by_cases h1 : a.1 = q
    · by_cases h2 : a.1 = p <;> simp_all [lookupM, eraseM, List.find?_cons]
    · by_cases h2 : a.1 = p <;> simp_all [lookupM, eraseM, List.find?_cons]

theorem lookupM_writeM_ne (m : List (Nat × Nat)) (q c p : Nat) (h : ¬ p = q) :
    lookupM (writeM m q c) p = lookupM m p := by
  have h2 := lookupM_eraseM_ne m q p h
  simp_all [writeM, lookupM, List.find?_cons, h]
  simp [show ¬ q = p from fun hh => h hh.symm]
  exact h2

theorem lookupA_eraseA_ne (m : List (Nat × Info)) (q p : Nat) (h : ¬ p = q) :
    lookupA (eraseA m q) p = lookupA m p := by
  induction m with
  | nil => rfl
  | cons a m ih =>
    by_cases h1 : a.1 = q
    · by_cases h2 : a.1 = p <;> simp_all [lookupA, eraseA, List.find?_cons]
    · by_cases h2 : a.1 = p <;> simp_all [lookupA, eraseA, List.find?_cons]

theorem lookupA_emplaceA_ne (m : List (Nat × Info)) (q : Nat) (i : Info) (p : Nat) (h : ¬ p = q) :
    lookupA (emplaceA m q i) p = lookupA m p := by
  unfold emplaceA
  split
  · rfl
  · simp [lookupA, List.find?_cons, show ¬ q = p from fun hh => h hh.symm]

theorem my_malloc_paused (g : GState) (env : MallocEnv) (size : Nat)
    (hact : g.activated = true)
    (hpz : g.paused.getD g.depth 0 ≠ 0)
    (hso : g.self_overthrow = false) :
    ∃ M E,
      my_malloc g env size =
        (env.native_ptr,
         { g with paused := g.paused.set g.depth (g.paused.getD g.depth 0 - 1),
                  mem := M, errno := E }) := by
  cases hnp : env.native_ptr with
  | none =>
    refine ⟨g.mem, ENOMEM, ?_⟩
    unfold my_malloc nonFailingMalloc
    dsimp only
    simp_all
  | some q =>
    refine ⟨writeM g.mem q env.fresh_content, g.errno, ?_⟩
    unfold my_malloc nonFailingMalloc
    dsimp only
    simp_all

theorem my_malloc_preserves_other (g : GState) (env : MallocEnv) (size : Nat) (p : Nat)
    (hq : env.native_ptr ≠ Option.some p) :
    lookupA (my_malloc g env size).2.allocated p = lookupA g.allocated p
    ∧ lookupM (my_malloc g env size).2.mem p = lookupM g.mem p := by
  cases hso : (g.self_overthrow && decide (env.so_rand_val % 2 = 0)) with
  | true =>
    unfold my_malloc nonFailingMalloc nonFailingFree
    dsimp only
    simp only [hso]
    repeat' split <;> (try simp_all) <;> (try rfl)
  | false =>
    cases hnp : env.native_ptr with
    | none =>
      unfold my_malloc nonFailingMalloc nonFailingFree
      dsimp only
      simp only [hso, hnp]
      repeat' split <;> (try simp_all) <;> (try rfl)
    | some q =>
      have hqp : ¬ p = q := fun h => hq (by rw [hnp, h])
      unfold my_malloc nonFailingMalloc nonFailingFree
      dsimp only
      simp only [hso, hnp]
      repeat' split <;>
        (try simp_all [lookupA_emplaceA_ne, lookupM_writeM_ne, lookupM_eraseM_ne]) <;> (try rfl)

theorem my_malloc_frame (g : GState) (env : MallocEnv) (size : Nat) :
    ((my_malloc g env size).2.activated = g.activated)
    ∧ ((my_malloc g env size).2.self_overthrow = g.self_overthrow)
    ∧ ((my_malloc g env size).2.is_tracing = g.is_tracing)
    ∧ ((my_malloc g env size).2.strategy = g.strategy)
    ∧ ((my_malloc g env size).2.duty_cycle = g.duty_cycle)
    ∧ ((my_malloc g env size).2.delay = g.delay)
    ∧ ((my_malloc g env size).2.duration = g.duration)
    ∧ ((my_malloc g env size).2.depth = g.depth) := by
  cases hso : (g.self_overthrow && decide (env.so_rand_val % 2 = 0)) with
  | true =>
    unfold my_malloc nonFailingMalloc nonFailingFree
    dsimp only
    simp only [hso]
    repeat' split <;> (try simp_all) <;> (try rfl)
  | false =>
    cases hnp : env.native_ptr with
    | none =>
      unfold my_malloc nonFailingMalloc nonFailingFree
      dsimp only
      simp only [hso, hnp]
      repeat' split <;> (try simp_all) <;> (try rfl)
    | some p =>
      unfold my_malloc nonFailingMalloc nonFailingFree
      dsimp only
      simp only [hso, hnp]
      repeat' split <;> (try simp_all) <;> (try rfl)

theorem my_malloc_reach (g : GState) (env : MallocEnv) (size : Nat)
    (hact : g.activated = true) (htr : g.is_tracing = false)
    (hso : g.self_overthrow = false)
    (hpause : g.paused.getD g.depth 0 = 0)
    (hwl : env.white_list = false) (hsz : size ≠ 0)
    (hnp : env.native_ptr.isSome = true) (hins : env.insert_ok = true) :
    ∃ A M E,
      my_malloc g env size =
        ((if isTimeToFail g env g.malloc_counter then Option.none else env.native_ptr),
         { g with malloc_counter := (g.malloc_counter + 1) % U32MOD,
                  allocated := A, mem := M, errno := E }) := by
  obtain ⟨q, hq⟩ := Option.isSome_iff_exists.mp hnp
  unfold my_malloc nonFailingMalloc isTimeToFail
  dsimp only
  simp only [hact, htr, hso, hpause, hwl, hq, hins, Bool.false_and, Bool.false_or,
    if_false, ite_not, decide_eq_true_eq]
  by_cases hf : decideFail g.strategy g.duty_cycle g.delay g.duration env g.malloc_counter = true
  · exact ⟨g.allocated, g.mem, ENOMEM, by simp [hf, hsz]⟩
  · cases hig : env.ignore_list with
    | false => exact ⟨emplaceA g.allocated q ⟨g.malloc_counter, size⟩,
        writeM g.mem q env.fresh_content, g.errno, by simp [hf, hig, hsz]⟩
    | true => exact ⟨g.allocated, writeM g.mem q env.fresh_content, g.errno, by simp [hf, hig, hsz]⟩


theorem my_free_errno (g : GState) (p : Option Nat) :
    ((my_free g p).1).errno = g.errno := by
  cases p with
  | none => rfl
  | some q =>
    unfold my_free
    dsimp only
    split <;> rfl

theorem my_free_frame (g : GState) (p : Option Nat) :
    ((my_free g p).1.activated = g.activated)
    ∧ ((my_free g p).1.self_overthrow = g.self_overthrow)
    ∧ ((my_free g p).1.is_tracing = g.is_tracing)
    ∧ ((my_free g p).1.strategy = g.strategy)
    ∧ ((my_free g p).1.duty_cycle = g.duty_cycle)
    ∧ ((my_free g p).1.delay = g.delay)
    ∧ ((my_free g p).1.duration = g.duration)
    ∧ ((my_free g p).1.depth = g.depth)
    ∧ ((my_free g p).1.malloc_counter = g.malloc_counter)
    ∧ ((my_free g p).1.paused = g.paused) := by
  cases p with
  | none => exact ⟨rfl, rfl, rfl, rfl, rfl, rfl, rfl, rfl, rfl, rfl⟩
  | some q =>
    unfold my_free
    dsimp only
    split <;> simp

theorem my_free_allocated (g : GState) (q : Nat) (hact : g.activated = true) :
    ((my_free g (Option.some q)).1).allocated = eraseA g.allocated q := by
  unfold my_free
  dsimp only
  simp [hact]


theorem my_malloc_fst (g : GState) (env : MallocEnv) (size : Nat) :
    (my_malloc g env size).1 =
      mallocFst g.activated g.is_tracing g.self_overthrow (g.paused.getD g.depth 0)
        g.strategy g.duty_cycle g.delay g.duration g.malloc_counter env size := by
  cases hso : (g.self_overthrow && decide (env.so_rand_val % 2 = 0)) with
  | true =>
    unfold my_malloc mallocFst nonFailingMalloc isTimeToFail
    dsimp only
    simp only [hso]
    repeat' split <;> (try simp_all) <;> (try rfl)
  | false =>
    cases hnp : env.native_ptr with
    | none =>
      unfold my_malloc mallocFst nonFailingMalloc isTimeToFail
      dsimp only
      simp only [hso, hnp]
      repeat' split <;> (try simp_all) <;> (try rfl)
    | some p =>
      unfold my_malloc mallocFst nonFailingMalloc isTimeToFail
      dsimp only
      simp only [hso, hnp]
      repeat' split <;> (try simp_all) <;> (try rfl)

theorem my_malloc_fst_congr (g g' : GState) (env : MallocEnv) (size : Nat)
    (h1 : g'.activated = g.activated) (h2 : g'.is_tracing = g.is_tracing)
    (h3 : g'.self_overthrow = g.self_overthrow)
    (h4 : g'.paused.getD g'.depth 0 = g.paused.getD g.depth 0)
    (h5 : g'.strategy = g.strategy) (h6 : g'.duty_cycle = g.duty_cycle)
    (h7 : g'.delay = g.delay) (h8 : g'.duration = g.duration)
    (h9 : g'.malloc_counter = g.malloc_counter) :
    (my_malloc g' env size).1 = (my_malloc g env size).1 := by
  rw [my_malloc_fst, my_malloc_fst, h1, h2, h3, h4, h5, h6, h7, h8, h9]

theorem runMallocs_cons (g : GState) (c : MallocEnv × Nat) (rest : List (MallocEnv × Nat)) :
    runMallocs g (c :: rest) =
      ((my_malloc g c.1 c.2).1 :: (runMallocs (my_malloc g c.1 c.2).2 rest).1,
       (runMallocs (my_malloc g c.1 c.2).2 rest).2) := rfl

theorem runMallocs_bypass (calls : List (MallocEnv × Nat)) (g : GState)
    (hact : g.activated = true) (hso : g.self_overthrow = false)
    (hn : calls.length ≤ g.paused.getD g.depth 0) :
    (runMallocs g calls).1 = calls.map (fun c => c.1.native_ptr)
    ∧ ((runMallocs g calls).2).activated = g.activated
    ∧ ((runMallocs g calls).2).self_overthrow = g.self_overthrow
    ∧ ((runMallocs g calls).2).is_tracing = g.is_tracing
    ∧ ((runMallocs g calls).2).strategy = g.strategy
    ∧ ((runMallocs g calls).2).duty_cycle = g.duty_cycle
    ∧ ((runMallocs g calls).2).delay = g.delay
    ∧ ((runMallocs g calls).2).duration = g.duration
    ∧ ((runMallocs g calls).2).depth = g.depth
    ∧ ((runMallocs g calls).2).malloc_counter = g.malloc_counter
    ∧ ((runMallocs g calls).2).allocated = g.allocated
    ∧ ((runMallocs g calls).2).paused.getD g.depth 0
        = g.paused.getD g.depth 0 - calls.length := by
  induction calls generalizing g with
  | nil =>
    exact ⟨rfl, rfl, rfl, rfl, rfl, rfl, rfl, rfl, rfl, rfl, rfl, rfl⟩
  | cons c rest ih =>
    rw [List.length_cons] at hn
    have hv : g.paused.getD g.depth 0 ≠ 0 := by omega
    have hdl : g.depth < g.paused.length := getD_pos_lt _ _ hv
    obtain ⟨M, E, hm⟩ := my_malloc_paused g c.1 c.2 hact hv hso
    have hset : (g.paused.set g.depth (g.paused.getD g.depth 0 - 1)).getD g.depth 0
        = g.paused.getD g.depth 0 - 1 := getD_set_self _ _ _ hdl
    have hrec := ih { g with paused := g.paused.set g.depth (g.paused.getD g.depth 0 - 1),
                             mem := M, errno := E }
      hact hso (by rw [hset]; omega)
    rw [runMallocs_cons, hm]
    dsimp only
    dsimp only at hrec
    rw [List.length_cons, List.map_cons]
    refine ⟨by rw [hrec.1], hrec.2.1, hrec.2.2.1, hrec.2.2.2.1, hrec.2.2.2.2.1,
      hrec.2.2.2.2.2.1, hrec.2.2.2.2.2.2.1, hrec.2.2.2.2.2.2.2.1,
      hrec.2.2.2.2.2.2.2.2.1, hrec.2.2.2.2.2.2.2.2.2.1,
      hrec.2.2.2.2.2.2.2.2.2.2.1, ?_⟩
    have h3 := hrec.2.2.2.2.2.2.2.2.2.2.2
    rw [hset] at h3
    rw [h3]
    omega


theorem runMallocs_nth (calls : List (MallocEnv × Nat)) (g : GState)
    (hact : g.activated = true) (htr : g.is_tracing = false)
    (hso : g.self_overthrow = false)
    (hpause : g.paused.getD g.depth 0 = 0)
    (hcalls : ∀ c ∈ calls, ReachesCall c)
    (n : Nat) (hn : n < calls.length)
    (hseq : g.malloc_counter + n < U32MOD) :
    (runMallocs g calls).1[n]? =
      Option.some (if decideFail g.strategy g.duty_cycle g.delay g.duration
                      (calls.get ⟨n, hn⟩).1 (g.malloc_counter + n)
                   then Option.none
                   else (calls.get ⟨n, hn⟩).1.native_ptr) := by
  induction calls generalizing g n with
  | nil => cases hn
  | cons c rest ih =>
    obtain ⟨hwl, hsz, hnp, hins⟩ := hcalls c (List.mem_cons_self _ _)
    obtain ⟨A, M, E, hm⟩ := my_malloc_reach g c.1 c.2 hact htr hso hpause hwl hsz hnp hins
    cases n with
    | zero =>
      simp [runMallocs, hm, isTimeToFail]
    | succ n =>
      have hlt : g.malloc_counter + 1 < U32MOD := by omega
      have hmod : (g.malloc_counter + 1) % U32MOD = g.malloc_counter + 1 :=
        Nat.mod_eq_of_lt hlt
      have hrest : ∀ d ∈ rest, ReachesCall d := fun d hd => hcalls d (List.mem_cons_of_mem _ hd)
      have hn2 : n < rest.length := by simpa using Nat.lt_of_succ_lt_succ hn
      have hrec := ih { g with malloc_counter := (g.malloc_counter + 1) % U32MOD,
                               allocated := A, mem := M, errno := E }
        hact htr hso hpause hrest n hn2 (by simpa [hmod] using by omega)
      simp only [runMallocs, List.getElem?_cons_succ, List.get_cons_succ]
      simp only [hm]
      rw [hrec]
      simp [hmod]
      ring_nf


theorem runOps_append_one (g : GState) (ops : List Op) (a : Op) :
    runOps g (ops ++ [a]) = stepOp (runOps g ops) a := by
  simp [runOps, List.foldl_append]

theorem stepOp_mf_activated (g : GState) (op : Op) (h : isMallocFreeOp op = true) :
    (stepOp g op).activated = g.activated := by
  cases op
  case malloc env size => exact (my_malloc_frame g env size).1
  case free p => exact (my_free_frame g p).1
  all_goals simp [isMallocFreeOp] at h

theorem runOps_mf_activated (ops : List Op) (g : GState)
    (hops : ∀ op ∈ ops, isMallocFreeOp op = true) :
    (runOps g ops).activated = g.activated := by
  induction ops generalizing g with
  | nil => rfl
  | cons a l ih =>
    have h1 := hops a (List.mem_cons_self _ _)
    have h2 := ih (stepOp g a) (fun op hop => hops op (List.mem_cons_of_mem _ hop))
    calc (runOps g (a :: l)).activated
        = (runOps (stepOp g a) l).activated := rfl
      _ = (stepOp g a).activated := h2
      _ = g.activated := stepOp_mf_activated g a h1

theorem mem_regKeys_free (g : GState) (q p : Nat) (hact : g.activated = true) :
    p ∈ regKeys ((my_free g (Option.some q)).1) ↔ p ∈ regKeys g ∧ p ≠ q := by
  rw [regKeys, my_free_allocated g q hact]
  unfold regKeys eraseA
  constructor
  · intro h
    simp only [List.mem_map, List.mem_filter] at h
    obtain ⟨a, ⟨ha, hne⟩, rfl⟩ := h
    refine ⟨List.mem_map.mpr ⟨a, ha, rfl⟩, ?_⟩
    simpa using hne
  · rintro ⟨h1, hne⟩
    obtain ⟨a, ha, rfl⟩ := List.mem_map.mp h1
    exact List.mem_map.mpr ⟨a, List.mem_filter.mpr ⟨ha, by simpa using hne⟩, rfl⟩

theorem reg_decomp (ops : List Op) (g : GState)
    (hact : g.activated = true)
    (hops : ∀ op ∈ ops, isMallocFreeOp op = true)
    (p : Nat) (hp : p ∈ regKeys (runOps g ops)) :
    (p ∈ regKeys g ∧ Op.free (Option.some p) ∉ ops)
    ∨ ∃ l1 env size l2,
        ops = l1 ++ Op.malloc env size :: l2
        ∧ p ∈ regKeys (stepOp (runOps g l1) (Op.malloc env size))
        ∧ p ∉ regKeys (runOps g l1)
        ∧ Op.free (Option.some p) ∉ l2 := by
  induction ops using List.reverseRecOn with
  | nil => exact Or.inl ⟨hp, by simp⟩
  | append_singleton l a ih =>
    rw [runOps_append_one] at hp
    have hopsl : ∀ op ∈ l, isMallocFreeOp op = true := fun op h => hops op (by simp [h])
    have hactl : (runOps g l).activated = true := by
      rw [runOps_mf_activated l g hopsl]; exact hact
    have ha := hops a (by simp)
    cases a
    case malloc env size =>
      by_cases hmem : p ∈ regKeys (runOps g l)
      · rcases ih hopsl hmem with ⟨h1, h2⟩ | ⟨l1, env1, size1, l2, heq, h1, h2, h3⟩
        · exact Or.inl ⟨h1, by simp [List.mem_append, not_or, h2]⟩
        · exact Or.inr ⟨l1, env1, size1, l2 ++ [Op.malloc env size],
            by rw [heq]; simp, h1, h2, by simp [List.mem_append, not_or, h3]⟩
      · exact Or.inr ⟨l, env, size, [], by simp, hp, hmem, by simp⟩
    case free q =>
      cases q with
      | none =>
        have hstep : stepOp (runOps g l) (Op.free Option.none) = runOps g l := rfl
        rw [hstep] at hp
        rcases ih hopsl hp with ⟨h1, h2⟩ | ⟨l1, env1, size1, l2, heq, h1, h2, h3⟩
        · exact Or.inl ⟨h1, by simp [List.mem_append, not_or, h2]⟩
        · exact Or.inr ⟨l1, env1, size1, l2 ++ [Op.free Option.none],
            by rw [heq]; simp, h1, h2, by simp [List.mem_append, not_or, h3]⟩
      | some q =>
        have hm : p ∈ regKeys ((my_free (runOps g l) (Option.some q)).1) := hp
        rw [mem_regKeys_free _ _ _ hactl] at hm
        obtain ⟨hmem, hne⟩ := hm
        rcases ih hopsl hmem with ⟨h1, h2⟩ | ⟨l1, env1, size1, l2, heq, h1, h2, h3⟩
        · exact Or.inl ⟨h1, by simp [List.mem_append, not_or, h2, hne]⟩
        · exact Or.inr ⟨l1, env1, size1, l2 ++ [Op.free (Option.some q)],
            by rw [heq]; simp, h1, h2, by simp [List.mem_append, not_or, h3, hne]⟩
    all_goals simp [isMallocFreeOp] at ha


theorem malloc_errno_success (g : GState) (env : MallocEnv) (size : Nat) (p : Nat)
    (h : (my_malloc g env size).1 = Option.some p) :
    (my_malloc g env size).2.errno = g.errno := by
  revert h
  cases hso : (g.self_overthrow && decide (env.so_rand_val % 2 = 0)) with
  | true =>
    unfold my_malloc nonFailingMalloc nonFailingFree
    dsimp only
    simp only [hso]
    repeat' split <;> (try simp_all) <;> (try rfl)
  | false =>
    cases hnp : env.native_ptr with
    | none =>
      unfold my_malloc nonFailingMalloc nonFailingFree
      dsimp only
      simp only [hso, hnp]
      repeat' split <;> (try simp_all) <;> (try rfl)
    | some q =>
      unfold my_malloc nonFailingMalloc nonFailingFree
      dsimp only
      simp only [hso, hnp]
      repeat' split <;> (try simp_all) <;> (try rfl)

theorem malloc_errno_none (g : GState) (env : MallocEnv) (size : Nat)
    (hso : (g.self_overthrow && decide (env.so_rand_val % 2 = 0)) = false)
    (h : (my_malloc g env size).1 = Option.none) :
    (my_malloc g env size).2.errno = ENOMEM := by
  revert h
  cases hnp : env.native_ptr with
  | none =>
    unfold my_malloc nonFailingMalloc nonFailingFree
    dsimp only
    simp only [hso, hnp]
    repeat' split <;> (try simp_all) <;> (try rfl)
  | some q =>
    unfold my_malloc nonFailingMalloc nonFailingFree
    dsimp only
    simp only [hso, hnp]
    repeat' split <;> (try simp_all) <;> (try rfl)

theorem malloc_so_none (g : GState) (env : MallocEnv) (size : Nat)
    (hso : (g.self_overthrow && decide (env.so_rand_val % 2 = 0)) = true) :
    (my_malloc g env size).1 = Option.none := by
  unfold my_malloc nonFailingMalloc nonFailingFree
  dsimp only
  simp only [hso]
  repeat' split <;> (try simp_all) <;> (try rfl)

theorem malloc_errno_range (g : GState) (env : MallocEnv) (size : Nat) :
    (my_malloc g env size).2.errno = g.errno ∨ (my_malloc g env size).2.errno = ENOMEM := by
  cases hso : (g.self_overthrow && decide (env.so_rand_val % 2 = 0)) with
  | true =>
    unfold my_malloc nonFailingMalloc nonFailingFree
    dsimp only
    simp only [hso]
    repeat' split <;> (try simp_all) <;> (try rfl)
  | false =>
    cases hnp : env.native_ptr with
    | none =>
      unfold my_malloc nonFailingMalloc nonFailingFree
      dsimp only
      simp only [hso, hnp]
      repeat' split <;> (try simp_all) <;> (try rfl)
    | some q =>
      unfold my_malloc nonFailingMalloc nonFailingFree
      dsimp only
      simp only [hso, hnp]
      repeat' split <;> (try simp_all) <;> (try rfl)

theorem pause_push (g : GState) (d : Nat) (hd0 : d ≠ 0) (hdep : g.depth ≠ MAX_PAUSE_DEPTH) :
    pauseOverthrower g d
      = { g with depth := g.depth + 1, paused := g.paused.set (g.depth + 1) d } := by
  unfold pauseOverthrower
  simp [hd0, hdep]

theorem my_realloc_depth (g : GState) (env : MallocEnv) (p : Option Nat) (size : Nat) :
    ((my_realloc g env p size).2).depth = g.depth := by
  have hmd := (my_malloc_frame g env size).2.2.2.2.2.2.2
  cases p with
  | none => exact hmd
  | some q =>
    unfold my_realloc
    dsimp only
    split
    · exact (my_free_frame g (Option.some q)).2.2.2.2.2.2.2.1
    · split
      · unfold nativeRealloc
        cases env.native_ptr <;> rfl
      · rcases hmm : my_malloc g env size with ⟨r, g1⟩
        rw [hmm] at hmd
        cases r with
        | none => exact hmd
        | some np =>
          dsimp only
          have hf := (my_free_frame
            { g1 with mem := writeM g1.mem np ((lookupM g1.mem q).getD 0) }
            (Option.some q)).2.2.2.2.2.2.2.1
          exact hf.trans hmd

theorem stepOp_depth_le (g : GState) (op : Op) (h : g.depth ≤ MAX_PAUSE_DEPTH) :
    (stepOp g op).depth ≤ MAX_PAUSE_DEPTH := by
  cases op with
  | malloc env size =>
    show ((my_malloc g env size).2).depth ≤ MAX_PAUSE_DEPTH
    rw [(my_malloc_frame g env size).2.2.2.2.2.2.2]
    exact h
  | free p =>
    show ((my_free g p).1).depth ≤ MAX_PAUSE_DEPTH
    rw [(my_free_frame g p).2.2.2.2.2.2.2.1]
    exact h
  | realloc env p size =>
    show ((my_realloc g env p size).2).depth ≤ MAX_PAUSE_DEPTH
    rw [my_realloc_depth]
    exact h
  | pause dur =>
    show (pauseOverthrower g dur).depth ≤ MAX_PAUSE_DEPTH
    unfold pauseOverthrower
    dsimp only
    by_cases hd : g.depth = MAX_PAUSE_DEPTH
    · rw [if_pos hd]
      exact h
    · rw [if_neg hd]
      dsimp only
      unfold MAX_PAUSE_DEPTH at h hd ⊢
      omega
  | resume =>
    show (resumeOverthrower g).depth ≤ MAX_PAUSE_DEPTH
    unfold resumeOverthrower
    by_cases hd : g.depth = 0
    · rw [if_pos hd]
      exact h
    · rw [if_neg hd]
      dsimp only
      unfold MAX_PAUSE_DEPTH at h ⊢
      omega
  | activate cfg => exact h
  | deactivate =>
    show (0 : Nat) ≤ MAX_PAUSE_DEPTH
    exact Nat.zero_le _

theorem runOps_depth_le (ops : List Op) (g : GState) (h : g.depth ≤ MAX_PAUSE_DEPTH) :
    (runOps g ops).depth ≤ MAX_PAUSE_DEPTH := by
  induction ops generalizing g with
  | nil => exact h
  | cons a l ih => exact ih (stepOp g a) (stepOp_depth_le g a h)

/-- Claim C2 (confirmed).  For the STEP strategy with delay `D`, over any run
of malloc calls that all reach the failure-decision point (activated, not
tracing, pause counter of the current level zero, not white-listed, nonzero
size; with the non-injected NULL sources — self-overthrow, native OOM and
registry-store OOM — switched off so that a NULL return means an injected
failure), call number `n` (0-based sequence number, the counter starting at 0
and `n < 2^32` so the 32-bit counter has not wrapped) fails iff `n ≥ D`: the
first `D` calls succeed and every subsequent call fails. -/
theorem step_fail_iff (g : GState) (calls : List (MallocEnv × Nat)) (n : Nat)
    (hact : g.activated = true) (htr : g.is_tracing = false)
    (hso : g.self_overthrow = false)
    (hpause : g.paused.getD g.depth 0 = 0)
    (hstrat : g.strategy = Strategy.step)
    (hctr : g.malloc_counter = 0)
    (hcalls : ∀ c ∈ calls, ReachesCall c)
    (hn : n < calls.length) (hn32 : n < U32MOD) :
    (runMallocs g calls).1[n]? = Option.some Option.none ↔ g.delay ≤ n := by
  have h := runMallocs_nth calls g hact htr hso hpause hcalls n hn (by omega)
  obtain ⟨hwl, hsz, hnp, hins⟩ := hcalls (calls.get ⟨n, hn⟩) (List.get_mem calls n hn)
  obtain ⟨q, hq⟩ := Option.isSome_iff_exists.mp hnp
  simp only [List.get_eq_getElem] at hq
  rw [h, hctr, hstrat]
  by_cases hd : g.delay ≤ n <;> simp [decideFail, hd, hq]

/-- Witness for claim C2 at STEP(delay = 2) with three decision-reaching
calls: call number 2 fails (2 ≥ delay). -/
theorem step_fail_iff_witness :
    ((runMallocs gStep2 [(envOK, 1), (envOK, 1), (envOK, 1)]).1[2]? = Option.some Option.none
      ↔ gStep2.delay ≤ 2) :=
  step_fail_iff gStep2 [(envOK, 1), (envOK, 1), (envOK, 1)] 2 (by decide) (by decide)
    (by decide) (by decide) (by decide) (by decide) (by decide) (by decide) (by decide)

/-- Claim C1 (amended).  For the PULSE strategy with delay `D` and duration
`K`, under the same decision-reaching hypotheses as claim C2, call number `n`
(0-based sequence number) fails iff `D < n ≤ D + K`.  Consequently the run
shows `D + 1` successes, then `K` failures, then success forever — not the
`D` successes the spec pattern `"+"*D ++ "-"*K ++ "+"*(N-D-K)` prescribes. -/
theorem pulse_fail_iff (g : GState) (calls : List (MallocEnv × Nat)) (n : Nat)
    (hact : g.activated = true) (htr : g.is_tracing = false)
    (hso : g.self_overthrow = false)
    (hpause : g.paused.getD g.depth 0 = 0)
    (hstrat : g.strategy = Strategy.pulse)
    (hctr : g.malloc_counter = 0)
    (hcalls : ∀ c ∈ calls, ReachesCall c)
    (hn : n < calls.length) (hn32 : n < U32MOD) :
    (runMallocs g calls).1[n]? = Option.some Option.none
      ↔ (g.delay < n ∧ n ≤ g.delay + g.duration) := by
  have h := runMallocs_nth calls g hact htr hso hpause hcalls n hn (by omega)
  obtain ⟨hwl, hsz, hnp, hins⟩ := hcalls (calls.get ⟨n, hn⟩) (List.get_mem calls n hn)
  obtain ⟨q, hq⟩ := Option.isSome_iff_exists.mp hnp
  simp only [List.get_eq_getElem] at hq
  rw [h, hctr, hstrat]
  by_cases h1 : g.delay < n <;> by_cases h2 : n ≤ g.delay + g.duration <;>
    simp [decideFail, h1, h2, hq]

/-- Counterexample to claim C1 as stated: with PULSE(delay = 0, duration = 1)
and two decision-reaching calls the observed fail pattern (call 0 succeeds,
call 1 fails) differs from the spec pattern, which prescribes `delay = 0`
successes followed by `duration = 1` failures (call 0 failing). -/
theorem pulse_spec_pattern_counterexample :
    (runMallocs gPulse01 [(envOK, 1), (envOK, 1)]).1.map Option.isNone
      ≠ specPulsePattern gPulse01.delay gPulse01.duration 2 := by decide

/-- Witness for claim C1 (amended) at PULSE(delay = 1, duration = 2) with
four decision-reaching calls: call number 2 fails (1 < 2 ≤ 3). -/
theorem pulse_fail_iff_witness :
    ((runMallocs gPulse11 [(envOK, 1), (envOK, 1), (envOK, 1), (envOK, 1)]).1[2]? = Option.some Option.none
      ↔ (gPulse11.delay < 2 ∧ 2 ≤ gPulse11.delay + gPulse11.duration)) :=
  pulse_fail_iff gPulse11 [(envOK, 1), (envOK, 1), (envOK, 1), (envOK, 1)] 2 (by decide) (by decide)
    (by decide) (by decide) (by decide) (by decide) (by decide) (by decide) (by decide)
/-- Claim C3 (amended).  For every malloc call while activated: a non-NULL
return leaves `errno` unchanged; a NULL return sets `errno = ENOMEM` on the
injected-failure, genuine-native-OOM (where the underlying allocator itself
sets `errno`) and registry-insert-OOM paths; but a NULL produced by the
self-overthrow emulation inside `nonFailingMalloc` is returned without the
emulation touching `errno` or any other state, and `errno` afterwards is
always either its prior value or `ENOMEM`. -/
theorem malloc_errno_spec (g : GState) (env : MallocEnv) (size : Nat)
    (hact : g.activated = true) :
    (∀ p, (my_malloc g env size).1 = Option.some p →
        (my_malloc g env size).2.errno = g.errno)
    ∧ (¬ (g.self_overthrow = true ∧ env.so_rand_val % 2 = 0) →
        (my_malloc g env size).1 = Option.none →
        (my_malloc g env size).2.errno = ENOMEM)
    ∧ ((g.self_overthrow = true ∧ env.so_rand_val % 2 = 0) →
        nonFailingMalloc g env size = (Option.none, g)
        ∧ (my_malloc g env size).1 = Option.none)
    ∧ ((my_malloc g env size).2.errno = g.errno ∨ (my_malloc g env size).2.errno = ENOMEM) := by
  refine ⟨fun p h => malloc_errno_success g env size p h,
    fun hso h => malloc_errno_none g env size (by simpa using hso) h,
    fun hso => ⟨?_, malloc_so_none g env size (by simpa using hso)⟩,
    malloc_errno_range g env size⟩
  unfold nonFailingMalloc
  simp [hso.1, hso.2]

/-- Counterexample to claim C3 as stated: in self-overthrow mode an
activated malloc whose emulation coin fails returns NULL while `errno`
keeps its prior value, which differs from `ENOMEM`. -/
theorem malloc_errno_counterexample :
    gSO.activated = true
    ∧ (my_malloc gSO envSO 1).1 = Option.none
    ∧ (my_malloc gSO envSO 1).2.errno = gSO.errno
    ∧ gSO.errno ≠ ENOMEM := by decide

/-- Witness for claim C3 (amended): a successful tracked allocation under
the NONE strategy leaves `errno` unchanged. -/
theorem malloc_errno_spec_witness :
    (my_malloc gNone envOK 1).2.errno = gNone.errno :=
  (malloc_errno_spec gNone envOK 1 (by decide)).1 1000 (by decide)

/-- Claim C4 (confirmed).  Over any activated run of malloc/free operations
starting from an empty registry in which every pointer newly tracked by a
malloc is later passed to free, `deactivateOverthrower` returns 0; and in
general `deactivateOverthrower` returns the number of currently tracked
(leaked) blocks, clears the registry, and an immediately following second
`deactivateOverthrower` returns 0. -/
theorem deactivate_leak_count (g : GState) (ops : List Op)
    (hact : g.activated = true) (hreg : g.allocated = [])
    (hops : ∀ op ∈ ops, isMallocFreeOp op = true)
    (hbal : ∀ l1 env size l2 p, ops = l1 ++ Op.malloc env size :: l2 →
        p ∈ regKeys (stepOp (runOps g l1) (Op.malloc env size)) →
        p ∉ regKeys (runOps g l1) →
        Op.free (Option.some p) ∈ l2) :
    (deactivateOverthrower (runOps g ops)).1 = 0
    ∧ (∀ g' : GState,
        (deactivateOverthrower g').1 = g'.allocated.length
        ∧ ((deactivateOverthrower g').2).allocated = []
        ∧ (deactivateOverthrower ((deactivateOverthrower g').2)).1 = 0) := by
  have hempty : (runOps g ops).allocated = [] := by
    rcases hh : (runOps g ops).allocated with _ | ⟨e, rest⟩
    · rfl
    · exfalso
      have hpk : e.1 ∈ regKeys (runOps g ops) := by
        rw [regKeys, hh]
        exact List.mem_map.mpr ⟨e, by simp, rfl⟩
      rcases reg_decomp ops g hact hops e.1 hpk with ⟨h1, _⟩ | ⟨l1, env, size, l2, heq, h1, h2, h3⟩
      · rw [regKeys, hreg] at h1
        simp at h1
      · exact h3 (hbal l1 env size l2 e.1 heq h1 h2)
  refine ⟨?_, fun g' => ⟨rfl, rfl, rfl⟩⟩
  show (runOps g ops).allocated.length = 0
  rw [hempty]
  rfl

/-- Witness for claim C4: one tracked allocation of pointer 1000 followed by
its free makes deactivation report zero leaks. -/
theorem deactivate_leak_count_witness :
    (deactivateOverthrower (runOps gNone [Op.malloc envOK 5, Op.free (Option.some 1000)])).1 = 0 :=
  (deactivate_leak_count gNone [Op.malloc envOK 5, Op.free (Option.some 1000)]
    (by decide) (by decide) (by decide)
    (by
      intro l1 env size l2 p heq h1 h2
      cases l1 with
      | nil =>
        rw [List.nil_append] at heq
        injection heq with ha hb
        cases ha
        subst hb
        have hk : regKeys (stepOp (runOps gNone []) (Op.malloc envOK 5)) = [1000] := by decide
        rw [hk] at h1
        have : p = 1000 := by simpa using h1
        subst this
        simp
      | cons x l1 =>
        cases l1 with
        | nil => simp at heq
        | cons y l1 => simp at heq)).1

/-- Claim C5 (confirmed).  `realloc(NULL, n)` is literally a delegation to
`malloc(n)` (same result and same state change), and for non-NULL `p`,
`realloc(p, 0)` performs exactly `free(p)` and returns NULL. -/
theorem realloc_null_and_zero (g : GState) (env : MallocEnv) (n : Nat) (p : Nat) :
    my_realloc g env Option.none n = my_malloc g env n
    ∧ my_realloc g env (Option.some p) 0 = (Option.none, (my_free g (Option.some p)).1) :=
  ⟨rfl, rfl⟩

/-- Claim C6 (confirmed).  For a tracked pointer `p` and `size > 0`, when the
inner allocation of `realloc(p, size)` fails, `realloc` returns NULL with the
state of the failed inner `malloc`, and the old block is untouched: its
registry entry (sequence number and size) and its heap contents are
unchanged, and it is not freed.  The hypothesis `env.native_ptr ≠ some p`
records that the native allocator cannot hand out a pointer that is still
live. -/
theorem realloc_inner_failure (g : GState) (env : MallocEnv) (p : Nat) (size : Nat) (info : Info)
    (hreg : lookupA g.allocated p = Option.some info)
    (hsz : size ≠ 0)
    (hfail : (my_malloc g env size).1 = Option.none)
    (hfresh : env.native_ptr ≠ Option.some p) :
    my_realloc g env (Option.some p) size = (Option.none, (my_malloc g env size).2)
    ∧ lookupA ((my_malloc g env size).2).allocated p = Option.some info
    ∧ lookupM ((my_malloc g env size).2).mem p = lookupM g.mem p := by
  have hpres := my_malloc_preserves_other g env size p hfresh
  have hm : my_malloc g env size = (Option.none, (my_malloc g env size).2) := by
    rw [← hfail]
  refine ⟨?_, ?_, hpres.2⟩
  · unfold my_realloc
    simp only [hreg, hsz, if_neg hsz]
    rw [hm]
    simp
  · rw [hpres.1, hreg]

/-- Witness for claim C6: reallocating the tracked pointer 500 under
STEP(delay = 0) makes the inner malloc fail by injection and leaves the old
entry intact. -/
theorem realloc_inner_failure_witness :
    my_realloc gC6 envOK (Option.some 500) 8 = (Option.none, (my_malloc gC6 envOK 8).2)
    ∧ lookupA ((my_malloc gC6 envOK 8).2).allocated 500 = Option.some ⟨1, 4⟩
    ∧ lookupM ((my_malloc gC6 envOK 8).2).mem 500 = lookupM gC6.mem 500 :=
  realloc_inner_failure gC6 envOK 500 8 ⟨1, 4⟩ (by decide) (by decide) (by decide) (by decide)

/-- Claim C7 (confirmed).  `free` preserves `errno` for every pointer
(NULL, tracked or untracked) whether or not the shim is activated; the
native `free` is modelled as `errno`-preserving, so the claim reduces to the
shim's own save/restore around the registry erase. -/
theorem free_preserves_errno (g : GState) (p : Option Nat) :
    ((my_free g p).1).errno = g.errno :=
  my_free_errno g p

/-- Claim C9 (confirmed).  `free(NULL)` returns immediately: the state
(registry, heap, `errno`, pause stack) is unchanged and the native `free` is
not invoked (the second component of the result records that invocation). -/
theorem free_null_is_noop (g : GState) : my_free g Option.none = (g, false) := rfl

/-- Claim C8 (confirmed).  After `pauseOverthrower(d)` with finite `0 < d <
UINT_MAX` on an activated, unpaused thread (depth below `MAX_PAUSE_DEPTH`,
pause list of length 17, self-overthrow off), the next `d` mallocs bypass
failure injection and tracking — each returns the native allocator's answer,
the registry and the allocation counter are unchanged, and each call
decrements the pause counter by one (`d - k` after `k` calls) — after which
malloc behaves exactly as it would have immediately before the pause; and
`pauseOverthrower(0)` stores `UINT_MAX`, the indefinite-pause sentinel. -/
theorem pause_semantics (g : GState) (d : Nat) (calls : List (MallocEnv × Nat))
    (hact : g.activated = true)
    (hso : g.self_overthrow = false)
    (hdepth : g.depth < MAX_PAUSE_DEPTH)
    (hlen : g.paused.length = MAX_PAUSE_DEPTH + 1)
    (hpre : g.paused.getD g.depth 0 = 0)
    (hd0 : 0 < d) (hdmax : d < UINT_MAX)
    (hcalls : calls.length = d) :
    (runMallocs (pauseOverthrower g d) calls).1 = calls.map (fun c => c.1.native_ptr)
    ∧ ((runMallocs (pauseOverthrower g d) calls).2).allocated = g.allocated
    ∧ ((runMallocs (pauseOverthrower g d) calls).2).malloc_counter = g.malloc_counter
    ∧ (∀ k, k ≤ d →
        ((runMallocs (pauseOverthrower g d) (calls.take k)).2).paused.getD (g.depth + 1) 0
          = d - k)
    ∧ (∀ env size,
        (my_malloc ((runMallocs (pauseOverthrower g d) calls).2) env size).1
          = (my_malloc g env size).1)
    ∧ (pauseOverthrower g 0).paused.getD (g.depth + 1) 0 = UINT_MAX := by
  have hd0' : d ≠ 0 := Nat.pos_iff_ne_zero.mp hd0
  have hdep' : g.depth ≠ MAX_PAUSE_DEPTH := Nat.ne_of_lt hdepth
  have hpd := pause_push g d hd0' hdep'
  have hdl : g.depth + 1 < g.paused.length := by
    rw [hlen]
    unfold MAX_PAUSE_DEPTH at hdepth ⊢
    omega
  have hget : (pauseOverthrower g d).paused.getD (pauseOverthrower g d).depth 0 = d := by
    rw [hpd]
    dsimp only
    exact getD_set_self _ _ _ hdl
  have hactp : (pauseOverthrower g d).activated = true := by rw [hpd]; exact hact
  have hsop : (pauseOverthrower g d).self_overthrow = false := by rw [hpd]; exact hso
  obtain ⟨b1, b2, b3, b4, b5, b6, b7, b8, b9, b10, b11, b12⟩ :=
    runMallocs_bypass calls (pauseOverthrower g d) hactp hsop (by rw [hget, hcalls])
  refine ⟨b1, ?_, ?_, ?_, ?_, ?_⟩
  · rw [b11, hpd]
  · rw [b10, hpd]
  · intro k hk
    have hlentake : (calls.take k).length = k := by
      rw [List.length_take]
      omega
    obtain ⟨c1, c2, c3, c4, c5, c6, c7, c8, c9, c10, c11, c12⟩ :=
      runMallocs_bypass (calls.take k) (pauseOverthrower g d) hactp hsop
        (by rw [hget, hlentake]; omega)
    have hdp : (pauseOverthrower g d).depth = g.depth + 1 := by rw [hpd]
    rw [hdp] at c12
    rw [c12, hlentake]
    rw [← hdp, hget]
  · intro env size
    refine my_malloc_fst_congr g ((runMallocs (pauseOverthrower g d) calls).2) env size
      (by rw [b2, hpd]) (by rw [b4, hpd]) (by rw [b3, hpd])
      ?_ (by rw [b5, hpd]) (by rw [b6, hpd]) (by rw [b7, hpd]) (by rw [b8, hpd])
      (by rw [b10, hpd])
    rw [hpre]
    have : ((runMallocs (pauseOverthrower g d) calls).2).paused.getD
        ((pauseOverthrower g d).depth) 0 = 0 := by
      rw [b12, hget, hcalls]
      omega
    rw [← b9] at this
    rw [this]
  · unfold pauseOverthrower
    simp only [if_pos rfl]
    rw [if_neg hdep']
    dsimp only
    exact getD_set_self _ _ _ hdl

/-- Witness for claim C8: pausing for 2 allocations under the NONE strategy
makes the next two mallocs return the native pointers. -/
theorem pause_semantics_witness :
    (runMallocs (pauseOverthrower gNone 2) [(envOK, 1), (envOK, 1)]).1
      = [(envOK, 1), (envOK, 1)].map (fun c => c.1.native_ptr) :=
  (pause_semantics gNone 2 [(envOK, 1), (envOK, 1)] (by decide) (by decide) (by decide)
    (by decide) (by decide) (by decide) (by decide) (by decide)).1

/-- Claim C10 (amended).  Starting from any state whose pause depth is at
most `MAX_PAUSE_DEPTH` (16), every sequence of operations keeps the depth in
bounds, so indexing `paused[depth]` stays in range and the assertion in
`my_malloc` never fires; `pauseOverthrower` at depth 16 saturates by
overwriting the top slot without incrementing, `resumeOverthrower` at depth
0 is a no-op, `deactivateOverthrower` resets the depth to 0, and no other
operation (`malloc`, `free`, `realloc`, `activateOverthrower`) changes the
depth. -/
theorem depth_invariant (ops : List Op) (g : GState) (h : g.depth ≤ MAX_PAUSE_DEPTH) :
    (runOps g ops).depth ≤ MAX_PAUSE_DEPTH
    ∧ (∀ g' : GState, ∀ d, g'.depth = MAX_PAUSE_DEPTH →
        pauseOverthrower g' d
          = { g' with paused := g'.paused.set MAX_PAUSE_DEPTH (if d = 0 then UINT_MAX else d) })
    ∧ (∀ g' : GState, g'.depth = 0 → resumeOverthrower g' = g')
    ∧ (∀ g' : GState, ((deactivateOverthrower g').2).depth = 0)
    ∧ (∀ (g' : GState) (env : MallocEnv) (size : Nat),
        ((my_malloc g' env size).2).depth = g'.depth)
    ∧ (∀ (g' : GState) (p : Option Nat), ((my_free g' p).1).depth = g'.depth)
    ∧ (∀ (g' : GState) (env : MallocEnv) (p : Option Nat) (size : Nat),
        ((my_realloc g' env p size).2).depth = g'.depth)
    ∧ (∀ (g' : GState) (cfg : ActivationConfig),
        (activateOverthrower g' cfg).depth = g'.depth) := by
  refine ⟨runOps_depth_le ops g h, ?_, ?_, fun g' => rfl,
    fun g' env size => (my_malloc_frame g' env size).2.2.2.2.2.2.2,
    fun g' p => (my_free_frame g' p).2.2.2.2.2.2.2.1,
    fun g' env p size => my_realloc_depth g' env p size,
    fun g' cfg => rfl⟩
  · intro g' d hd
    unfold pauseOverthrower
    dsimp only
    rw [if_pos hd, hd]
  · intro g' hd
    unfold resumeOverthrower
    rw [if_pos hd]

/-- Counterexample to claim C10 as stated: `deactivateOverthrower` is an
operation other than pause/resume yet it changes the depth (from 1 to 0)
because the source clears the whole per-thread state. -/
theorem depth_change_counterexample :
    (stepOp (stepOp gNone (Op.pause 1)) Op.deactivate).depth
      ≠ (stepOp gNone (Op.pause 1)).depth := by decide

/-- Witness for claim C10 (amended): a pause/resume pair starting from the
initial state keeps the depth within bounds. -/
theorem depth_invariant_witness :
    (runOps initState [Op.pause 3, Op.resume]).depth ≤ MAX_PAUSE_DEPTH :=
  (depth_invariant [Op.pause 3, Op.resume] initState (by decide)).1

end Overthrower
